import Mathlib

/-!
Verification of the request-orchestration layer of the GENA-TORGOFF.AI
image-editing studio (`src/services/geminiService.ts`): the retry executor
`withRetry`, the response parser `parseImageResponse`, the request builders
`createImagePart` / `mixImages`, and the object-detection decoding path.

The TypeScript functions are embedded shallowly: JavaScript strings become
Lean `String`s (with substring search and template interpolation modelled on
`List Char`), `undefined`-able fields become `Option`s with explicit JS
truthiness tests, thrown errors become `Except` results, and the retry loop
becomes a function from the per-attempt behaviour of the wrapped operation
(`Nat → Except JsError α`) and the sampled jitter values (`Nat → ℚ`) to a
trace recording the final outcome, the number of calls, and the delays
awaited.
-/

namespace Gena

/-- Substring occurrence test on character lists: models JavaScript
`hay.includes(needle)`. -/
def subOccurs (needle : List Char) : List Char → Bool
  | [] => needle.isEmpty
  | c :: rest => needle.isPrefixOf (c :: rest) || subOccurs needle rest

/-- JavaScript `hay.includes(needle)` on strings. -/
def containsStr (hay needle : String) : Bool :=
  subOccurs needle.data hay.data

/-- JavaScript `x || ''` for a possibly-undefined string `x`. -/
def jsOrEmpty : Option String → String
  | some s => s
  | none => ""

/-- JavaScript truthiness of a possibly-undefined string: `undefined` and the
empty string are falsy. -/
def jsTruthyStr : Option String → Bool
  | some s => !s.isEmpty
  | none => false

/-- JavaScript template-literal interpolation of a string-or-undefined value:
interpolating `undefined` renders the text `undefined`. -/
def jsInterp : Option String → String
  | some s => s
  | none => "undefined"

/-- JavaScript `a || b` where `a` is a possibly-undefined string and `b` a
string: yields `a` when `a` is a non-empty (truthy) string, else `b`. -/
def jsStrOr (a : Option String) (b : String) : String :=
  match a with
  | some s => if s.isEmpty then b else s
  | none => b

/-- The error shape consumed by the retry executor for classification:
`{status?/code?: number, message?: string}` (geminiService.ts lines 28-29). -/
structure JsError where
  message : Option String
  status : Option Nat
  code : Option Nat
deriving DecidableEq, Repr

/-- Models `error?.status || error?.code` (geminiService.ts line 29): the
`status` field when present and truthy (a number is falsy exactly when 0),
otherwise the `code` field. -/
def effStatus (e : JsError) : Option Nat :=
  match e.status with
  | some s => if s = 0 then e.code else some s
  | none => e.code

/-- The three message substrings that mark a quota error, as tested at
geminiService.ts lines 35-37 and again at line 53. -/
def msgMentionsQuota (msg : String) : Bool :=
  containsStr msg "429" || containsStr msg "quota" || containsStr msg "RESOURCE_EXHAUSTED"

/-- Transient-error classification of `withRetry` (geminiService.ts
lines 32-37): status 429 or 503, or a message containing one of the three
quota substrings. -/
def isQuotaError (e : JsError) : Bool :=
  effStatus e == some 429 || effStatus e == some 503 ||
    msgMentionsQuota (jsOrEmpty e.message)

/-- `MAX_RETRIES` constant (geminiService.ts line 13). -/
def MAX_RETRIES : Nat := 5

/-- `BASE_DELAY` constant, in milliseconds (geminiService.ts line 14). -/
def BASE_DELAY : Nat := 2000

/-- The user-facing quota-exhaustion message thrown at geminiService.ts
line 54. -/
def QUOTA_MSG : String :=
  "⚠️ Превышен лимит квоты API (429). Сервер перегружен. Пожалуйста, подождите 1-2 минуты и попробуйте снова."

/-- Whether an attempt result is a failure classified as transient. -/
def isTransientFail {α : Type} : Except JsError α → Bool
  | .error e => isQuotaError e
  | .ok _ => false

/-- Trace of the `for` loop of `withRetry` (geminiService.ts lines 22-49):
the value returned or the last error on loop exit, the number of calls to the
wrapped operation, and the backoff delays awaited, in order. -/
structure RetryTrace (α : Type) where
  result : Except JsError α
  calls : Nat
  delays : List ℚ

/-- The retry loop of `withRetry` starting at a given attempt index
(geminiService.ts lines 22-49).  `op n` is the outcome of the `n`-th
invocation of the wrapped operation (0-indexed); `jitter n` is the value of
`Math.random() * 1000` sampled before the retry that follows attempt `n`.
On success the loop returns; on a transient failure with `attempt <
MAX_RETRIES` it waits `BASE_DELAY * 2 ^ attempt + jitter attempt` and
continues; otherwise it breaks with the error as `lastError`. -/
def retryGo {α : Type} (op : Nat → Except JsError α) (jitter : Nat → ℚ)
    (attempt : Nat) : RetryTrace α :=
  match op attempt with
  | .ok a => ⟨.ok a, 1, []⟩
  | .error e =>
    if _h : isQuotaError e = true ∧ attempt < MAX_RETRIES then
      let t := retryGo op jitter (attempt + 1)
      ⟨t.result, t.calls + 1, ((BASE_DELAY : ℚ) * 2 ^ attempt + jitter attempt) :: t.delays⟩
    else ⟨.error e, 1, []⟩
termination_by MAX_RETRIES - attempt
decreasing_by simp_wf; omega

/-- Final outcome of `withRetry`: a resolved value, the distinguished
quota-exceeded error thrown at geminiService.ts line 54, or the original
error rethrown at line 57. -/
inductive RetryOutcome (α : Type) where
  | ok (value : α)
  | quotaExceeded (msg : String)
  | err (e : JsError)

/-- A complete run of `withRetry`: final outcome plus the call count and the
delays awaited. -/
structure RetryRun (α : Type) where
  outcome : RetryOutcome α
  calls : Nat
  delays : List ℚ

/-- The final error handling of `withRetry` (geminiService.ts lines 51-57),
applied to the trace of the loop: a resolved value passes through; on loop
exit with an error, the distinguished quota message is thrown when
`lastError?.message || ''` contains one of the three quota substrings
(line 53), otherwise the original error is rethrown (line 57). -/
def finishRetry {α : Type} (t : RetryTrace α) : RetryRun α :=
  match t.result with
  | .ok a => ⟨.ok a, t.calls, t.delays⟩
  | .error e =>
    if msgMentionsQuota (jsOrEmpty e.message) then
      ⟨.quotaExceeded QUOTA_MSG, t.calls, t.delays⟩
    else
      ⟨.err e, t.calls, t.delays⟩

/-- `withRetry` (geminiService.ts lines 19-58): run the retry loop from
attempt 0, then apply the final error handling to its trace. -/
def withRetry {α : Type} (op : Nat → Except JsError α) (jitter : Nat → ℚ) :
    RetryRun α :=
  finishRetry (retryGo op jitter 0)

/-! ## Response model and parser -/

/-- An inline-data blob of a response part.  The parser reads only the
`data` field (geminiService.ts line 355); `mimeType` is carried by the API
but ignored. -/
structure InlineData where
  data : Option String
  mimeType : Option String
deriving DecidableEq, Repr

/-- One part of a candidate's content: possibly inline image data, possibly
text. -/
structure ResponsePart where
  inlineData : Option InlineData
  text : Option String
deriving DecidableEq, Repr

/-- Candidate content: a possibly-undefined list of parts. -/
structure Content where
  parts : Option (List ResponsePart)
deriving DecidableEq, Repr

/-- A generation candidate. -/
structure Candidate where
  content : Option Content
  finishReason : Option String
deriving DecidableEq, Repr

/-- Top-level prompt feedback. -/
structure PromptFeedback where
  blockReason : Option String
deriving DecidableEq, Repr

/-- A raw API response, as far as `parseImageResponse` inspects it. -/
structure GenResponse where
  candidates : Option (List Candidate)
  promptFeedback : Option PromptFeedback
deriving DecidableEq, Repr

/-- The finish-reason lookup table of geminiService.ts lines 335-341. -/
def reasonsMap (reason : String) : Option String :=
  if reason = "SAFETY" then some "Заблокировано фильтрами безопасности."
  else if reason = "RECITATION" then some "Обнаружено цитирование."
  else if reason = "OTHER" then some "Иная причина завершения."
  else if reason = "IMAGE_SAFETY" then some "Изображение заблокировано фильтрами безопасности."
  else if reason = "IMAGE_OTHER" then some "Не удалось сгенерировать изображение. Попробуйте изменить запрос или использовать другое изображение."
  else none

/-- The `for (const part of parts)` scan of geminiService.ts lines 353-358:
the first part whose `inlineData` field is present (truthy) wins. -/
def findInline : List ResponsePart → Option InlineData
  | [] => none
  | p :: rest =>
    match p.inlineData with
    | some d => some d
    | none => findInline rest

/-- The no-candidates branch of `parseImageResponse` (geminiService.ts
lines 322-327): report a prompt-level block reason when present and truthy,
otherwise the no-variants message. -/
def noCandidatesError (resp : GenResponse) : Except String String :=
  match resp.promptFeedback with
  | some pf =>
    match pf.blockReason with
    | some br =>
      if br.isEmpty then .error "Gemini не вернул вариантов генерации."
      else .error ("Запрос заблокирован: " ++ br)
    | none => .error "Gemini не вернул вариантов генерации."
  | none => .error "Gemini не вернул вариантов генерации."

/-- `parseImageResponse` (geminiService.ts lines 316-367).  A thrown
`Error(m)` is modelled as `Except.error m`; the returned data-URI string as
`Except.ok`.  `response` is `Option`al to model a null/undefined response
(line 317). -/
def parseImageResponse (response : Option GenResponse) : Except String String :=
  match response with
  | none => .error "Получен пустой ответ от API."
  | some resp =>
    match resp.candidates with
    | none => noCandidatesError resp
    | some [] => noCandidatesError resp
    | some (candidate :: _) =>
      match candidate.content with
      | none =>
        match candidate.finishReason with
        | some reason =>
          if reason.isEmpty then .error "Модель вернула ответ без контента."
          else .error ("Генерация прервана. Причина: " ++ jsStrOr (reasonsMap reason) reason)
        | none => .error "Модель вернула ответ без контента."
      | some content =>
        match content.parts with
        | none => .error "Ответ модели содержит пустой список элементов."
        | some [] => .error "Ответ модели содержит пустой список элементов."
        | some (q :: qs) =>
          match findInline (q :: qs) with
          | some d => .ok ("data:image/png;base64," ++ jsInterp d.data)
          | none =>
            match (q :: qs).find? (fun p => jsTruthyStr p.text) with
            | some tp =>
              .error ("Модель вернула текст вместо изображения: \"" ++
                (jsOrEmpty tp.text).take 100 ++ "...\"")
            | none => .error "В ответе не найдено данных изображения."

/-! ## Request builders -/

/-- The extension alternatives of the strip pattern at geminiService.ts
line 289, in source order. -/
def IMAGE_EXTS : List String := ["png", "jpeg", "jpg", "webp"]

/-- The literal `data:image/<ext>;base64,` head matched by the strip
pattern. -/
def dataUrlHead (ext : String) : String := "data:image/" ++ ext ++ ";base64,"

/-- The `replace(/^data:image\/(png|jpeg|jpg|webp);base64,/, '')` of
geminiService.ts line 289: remove the anchored head for one of the four
listed extensions; leave the input unchanged when none matches. -/
def stripDataUrl (s : String) : String :=
  match IMAGE_EXTS.find? (fun ext => (dataUrlHead ext).data.isPrefixOf s.data) with
  | some ext => String.mk (s.data.drop (dataUrlHead ext).data.length)
  | none => s

/-- The character class `[a-zA-Z]`. -/
def isAsciiLetter (c : Char) : Bool :=
  (97 ≤ c.toNat && c.toNat ≤ 122) || (65 ≤ c.toNat && c.toNat ≤ 90)

/-- The `match(/^data:(image\/[a-zA-Z]+);base64,/)` of geminiService.ts
line 290, returning the first capture group `image/<letters>` on a match:
the input must start with `data:image/`, followed by a maximal non-empty run
of ASCII letters, followed immediately by `;base64,`. -/
def mimeOfDataUrl (s : String) : Option String :=
  if ("data:image/" : String).data.isPrefixOf s.data then
    let rest := s.data.drop 11
    let letters := rest.takeWhile isAsciiLetter
    if letters.isEmpty then none
    else if (";base64," : String).data.isPrefixOf (rest.drop letters.length) then
      some ("image/" ++ String.mk letters)
    else none
  else none

/-- The `inlineData` payload built for a request image part. -/
structure ImagePart where
  data : String
  mimeType : String
deriving DecidableEq, Repr

/-- `createImagePart` (geminiService.ts lines 288-299): strip a known data-URI
head from the payload, and take the MIME type from the general
`data:(image\/[a-zA-Z]+);base64,` match, defaulting to `image/png` when that
match fails. -/
def createImagePart (base64Data : String) : ImagePart :=
  { data := stripDataUrl base64Data
    mimeType := (mimeOfDataUrl base64Data).getD "image/png" }

/-- One entry of the request `parts` array: an image payload or a text
segment. -/
inductive RequestPart where
  | image (part : ImagePart)
  | text (s : String)
deriving DecidableEq, Repr

/-- `MixInput` (geminiService.ts lines 262-265): an image with an optional
label. -/
structure MixInput where
  base64 : String
  label : Option String
deriving DecidableEq, Repr

/-- The optional annotation pushed after a mixed image (geminiService.ts
lines 275-277): present exactly when `input.label` is truthy. -/
def labelParts (label : Option String) : List RequestPart :=
  match label with
  | some l => if l.isEmpty then [] else [RequestPart.text ("Reference for: " ++ l)]
  | none => []

/-- The `inputs.forEach` accumulation of geminiService.ts lines 273-278,
with `acc` the parts pushed so far. -/
def mixLoop (acc : List RequestPart) : List MixInput → List RequestPart
  | [] => acc
  | input :: rest =>
    mixLoop (acc ++ RequestPart.image (createImagePart input.base64) :: labelParts input.label) rest

/-- The request parts built by `mixImages` (geminiService.ts lines 267-283):
the forEach loop over the inputs followed by the final instruction push at
line 280. -/
def mixImages (inputs : List MixInput) (prompt : String) : List RequestPart :=
  mixLoop [] inputs ++ [RequestPart.text (prompt ++ ". Return only the combined image.")]

/-! ## Object detection decoding -/

/-- A detection bounding box (geminiService.ts line 219). -/
structure DetectionBox where
  label : String
  ymin : ℚ
  xmin : ℚ
  ymax : ℚ
  xmax : ℚ
deriving DecidableEq, Repr

/-- The response-decoding tail of `detectObjects` (geminiService.ts
lines 248-255), given the `response.text` accessor value and given
`JSON.parse` (a platform builtin, passed as `parseJson`; a JSON syntax error
is its `Except.error`): falsy text yields `[]`, and a parse failure is
caught and yields `[]` instead of propagating. -/
def detectObjects (parseJson : String → Except String (List DetectionBox))
    (text : Option String) : List DetectionBox :=
  match text with
  | none => []
  | some t =>
    if t.isEmpty then []
    else
      match parseJson t with
      | .ok boxes => boxes
      | .error _ => []

/-! ## Concrete fixtures used to instantiate the theorems -/

/-- A terminal error fixture: no status, no code, an unrelated message. -/
def terminalErr : JsError := ⟨some "Invalid argument", none, none⟩

/-- An error transient via its message (contains "quota"). -/
def quotaMsgErr : JsError := ⟨some "quota exceeded", none, none⟩

/-- An error transient solely via its status field: status 429, but a
message containing none of the three quota substrings. -/
def status429Err : JsError := ⟨some "boom", some 429, none⟩

/-- An operation failing on every attempt with the given error. -/
def alwaysFail (e : JsError) : Nat → Except JsError Unit := fun _ => .error e

/-- A response whose first candidate has content with the given parts. -/
def partsResponse (ps : List ResponsePart) (fr : Option String)
    (pf : Option PromptFeedback) (rest : List Candidate) : GenResponse :=
  ⟨some ({ content := some ⟨some ps⟩, finishReason := fr } :: rest), pf⟩

/-- A response whose first candidate has no content but a finish reason. -/
def noContentResponse (reason : String) (pf : Option PromptFeedback)
    (rest : List Candidate) : GenResponse :=
  ⟨some ({ content := none, finishReason := some reason } :: rest), pf⟩

/-- A constant jitter sample. -/
def constJitter (q : ℚ) : Nat → ℚ := fun _ => q

/-! ## Retry executor lemmas -/

/-- Unfolding equation for one iteration of the retry loop. -/
theorem retryGo_eq {α : Type} (op : Nat → Except JsError α) (jitter : Nat → ℚ)
    (attempt : Nat) :
    retryGo op jitter attempt =
      match op attempt with
      | .ok a => ⟨.ok a, 1, []⟩
      | .error e =>
        if _h : isQuotaError e = true ∧ attempt < MAX_RETRIES then
          let t := retryGo op jitter (attempt + 1)
          ⟨t.result, t.calls + 1, ((BASE_DELAY : ℚ) * 2 ^ attempt + jitter attempt) :: t.delays⟩
        else ⟨.error e, 1, []⟩ := by
  rw [retryGo]

/-- A successful attempt returns at once. -/
theorem retryGo_ok {α : Type} (op : Nat → Except JsError α) (jitter : Nat → ℚ)
    (attempt : Nat) (a : α) (h : op attempt = .ok a) :
    retryGo op jitter attempt = ⟨.ok a, 1, []⟩ := by
  rw [retryGo_eq, h]

/-- A failing attempt that is terminal or out of budget breaks the loop. -/
theorem retryGo_break {α : Type} (op : Nat → Except JsError α) (jitter : Nat → ℚ)
    (attempt : Nat) (e : JsError) (h : op attempt = .error e)
    (hc : ¬(isQuotaError e = true ∧ attempt < MAX_RETRIES)) :
    retryGo op jitter attempt = ⟨.error e, 1, []⟩ := by
  rw [retryGo_eq, h]
  exact dif_neg hc

/-- A transient failure within budget waits one backoff delay and retries. -/
theorem retryGo_step {α : Type} (op : Nat → Except JsError α) (jitter : Nat → ℚ)
    (attempt : Nat) (e : JsError) (h : op attempt = .error e)
    (hq : isQuotaError e = true) (hlt : attempt < MAX_RETRIES) :
    retryGo op jitter attempt =
      ⟨(retryGo op jitter (attempt + 1)).result,
        (retryGo op jitter (attempt + 1)).calls + 1,
        ((BASE_DELAY : ℚ) * 2 ^ attempt + jitter attempt) ::
          (retryGo op jitter (attempt + 1)).delays⟩ := by
  rw [retryGo_eq, h]
  exact dif_pos ⟨hq, hlt⟩

/-- The loop makes at most `fuel + 1` calls when at most `fuel` further
retries are allowed from the current attempt. -/
theorem retryGo_calls_le {α : Type} (op : Nat → Except JsError α) (jitter : Nat → ℚ) :
    ∀ fuel attempt, MAX_RETRIES ≤ attempt + fuel →
      (retryGo op jitter attempt).calls ≤ fuel + 1 := by
  intro fuel
  induction fuel with
  | zero =>
    intro attempt h
    cases hop : op attempt with
    | ok a => rw [retryGo_ok op jitter attempt a hop]
    | error e =>
      rw [retryGo_break op jitter attempt e hop (fun hc => absurd hc.2 (by omega))]
  | succ n ih =>
    intro attempt h
    cases hop : op attempt with
    | ok a => rw [retryGo_ok op jitter attempt a hop]; exact Nat.le_add_left 1 _
    | error e =>
      by_cases hc : isQuotaError e = true ∧ attempt < MAX_RETRIES
      · rw [retryGo_step op jitter attempt e hop hc.1 hc.2]
        have := ih (attempt + 1) (by omega)
        exact Nat.add_le_add_right this 1
      · rw [retryGo_break op jitter attempt e hop hc]
        exact Nat.le_add_left 1 _

/-- When every attempt up to the last one fails transiently and the last
attempt fails with `e`, the loop runs to exhaustion: it exits with `e` after
one call per remaining attempt. -/
theorem retryGo_exhausts {α : Type} (op : Nat → Except JsError α) (jitter : Nat → ℚ)
    (e : JsError) :
    ∀ fuel attempt, attempt + fuel = MAX_RETRIES →
      (∀ n, attempt ≤ n → n < MAX_RETRIES → isTransientFail (op n) = true) →
      op MAX_RETRIES = .error e →
      (retryGo op jitter attempt).result = .error e ∧
        (retryGo op jitter attempt).calls = fuel + 1 := by
  intro fuel
  induction fuel with
  | zero =>
    intro attempt h _ hfin
    have ha : attempt = MAX_RETRIES := by omega
    subst ha
    rw [retryGo_break op jitter MAX_RETRIES e hfin (fun hc => absurd hc.2 (by omega))]
    exact ⟨rfl, rfl⟩
  | succ n ih =>
    intro attempt h hall hfin
    have hlt : attempt < MAX_RETRIES := by omega
    have htr := hall attempt (Nat.le_refl _) hlt
    cases hop : op attempt with
    | ok a => rw [hop] at htr; simp [isTransientFail] at htr
    | error e' =>
      rw [hop] at htr
      have hq : isQuotaError e' = true := htr
      rw [retryGo_step op jitter attempt e' hop hq hlt]
      have := ih (attempt + 1) (by omega) (fun n hn h2 => hall n (by omega) h2) hfin
      exact ⟨this.1, by simp [this.2]⟩

/-- When the attempts before `k` fail transiently and attempt `k`
(`k ≤ MAX_RETRIES`) succeeds with `v`, the loop resolves with `v` after one
call per attempt up to and including `k`. -/
theorem retryGo_resolves {α : Type} (op : Nat → Except JsError α) (jitter : Nat → ℚ)
    (v : α) :
    ∀ fuel attempt k, attempt + fuel = k → k ≤ MAX_RETRIES →
      (∀ n, attempt ≤ n → n < k → isTransientFail (op n) = true) →
      op k = .ok v →
      (retryGo op jitter attempt).result = .ok v ∧
        (retryGo op jitter attempt).calls = fuel + 1 := by
  intro fuel
  induction fuel with
  | zero =>
    intro attempt k h _ _ hk
    have ha : attempt = k := by omega
    subst ha
    rw [retryGo_ok op jitter attempt v hk]
    exact ⟨rfl, rfl⟩
  | succ n ih =>
    intro attempt k h hk hall hok
    have hlt : attempt < k := by omega
    have htr := hall attempt (Nat.le_refl _) hlt
    cases hop : op attempt with
    | ok a => rw [hop] at htr; simp [isTransientFail] at htr
    | error e' =>
      rw [hop] at htr
      have hq : isQuotaError e' = true := htr
      rw [retryGo_step op jitter attempt e' hop hq (by omega)]
      have := ih (attempt + 1) k (by omega) hk (fun m hm h2 => hall m (by omega) h2) hok
      exact ⟨this.1, by simp [this.2]⟩

/-- The delays awaited from any attempt onward are exactly the backoff
formula evaluated at the consecutive attempt indices. -/
theorem retryGo_delays_eq {α : Type} (op : Nat → Except JsError α) (jitter : Nat → ℚ) :
    ∀ fuel attempt, MAX_RETRIES ≤ attempt + fuel → attempt ≤ MAX_RETRIES →
      ∃ m, attempt + m ≤ MAX_RETRIES ∧
        (retryGo op jitter attempt).delays
          = (List.range' attempt m).map (fun i => (BASE_DELAY : ℚ) * 2 ^ i + jitter i) := by
  intro fuel
  induction fuel with
  | zero =>
    intro attempt h hle
    refine ⟨0, by omega, ?_⟩
    cases hop : op attempt with
    | ok a => rw [retryGo_ok op jitter attempt a hop]; rfl
    | error e =>
      rw [retryGo_break op jitter attempt e hop (fun hc => absurd hc.2 (by omega))]
      rfl
  | succ n ih =>
    intro attempt h hle
    cases hop : op attempt with
    | ok a => exact ⟨0, by omega, by rw [retryGo_ok op jitter attempt a hop]; rfl⟩
    | error e =>
      by_cases hc : isQuotaError e = true ∧ attempt < MAX_RETRIES
      · obtain ⟨m, hm, hd⟩ := ih (attempt + 1) (by omega) (by omega)
        refine ⟨m + 1, by omega, ?_⟩
        rw [retryGo_step op jitter attempt e hop hc.1 hc.2]
        simp only [List.range'_succ, List.map_cons]
        rw [hd]
      · exact ⟨0, by omega, by rw [retryGo_break op jitter attempt e hop hc]; rfl⟩

/-- Unfolding of the final error handling when the loop resolved. -/
theorem withRetry_of_ok {α : Type} (op : Nat → Except JsError α) (jitter : Nat → ℚ)
    (a : α) (h : (retryGo op jitter 0).result = .ok a) :
    withRetry op jitter =
      ⟨.ok a, (retryGo op jitter 0).calls, (retryGo op jitter 0).delays⟩ := by
  unfold withRetry finishRetry
  rw [h]

/-- Unfolding of the final error handling when the loop exited with an
error: the quota message is thrown exactly when the last error's message
mentions one of the three quota substrings, otherwise the original error is
rethrown. -/
theorem withRetry_of_error {α : Type} (op : Nat → Except JsError α) (jitter : Nat → ℚ)
    (e : JsError) (h : (retryGo op jitter 0).result = .error e) :
    withRetry op jitter =
      ⟨if msgMentionsQuota (jsOrEmpty e.message) then .quotaExceeded QUOTA_MSG else .err e,
        (retryGo op jitter 0).calls, (retryGo op jitter 0).delays⟩ := by
  unfold withRetry finishRetry
  rw [h]
  by_cases hm : msgMentionsQuota (jsOrEmpty e.message) = true
  · simp [hm]
  · simp [hm]

/-- A non-transient error has, in particular, a message free of the three
quota substrings. -/
theorem msgQuota_false_of_terminal (e : JsError) (h : isQuotaError e = false) :
    msgMentionsQuota (jsOrEmpty e.message) = false := by
  unfold isQuotaError at h
  rcases Bool.or_eq_false_iff.mp h with ⟨-, h2⟩
  exact h2

/-- `finishRetry` preserves the loop's call count. -/
theorem withRetry_calls_eq {α : Type} (op : Nat → Except JsError α) (jitter : Nat → ℚ) :
    (withRetry op jitter).calls = (retryGo op jitter 0).calls := by
  unfold withRetry finishRetry
  split
  · rfl
  · split <;> rfl

/-- `finishRetry` preserves the delays awaited. -/
theorem withRetry_delays_eq {α : Type} (op : Nat → Except JsError α) (jitter : Nat → ℚ) :
    (withRetry op jitter).delays = (retryGo op jitter 0).delays := by
  unfold withRetry finishRetry
  split
  · rfl
  · split <;> rfl

/-! ## C1 -/

/-- C1: if the first attempt fails with an error that is not transient
(neither status 429/503 nor a message containing "429", "quota" or
"RESOURCE_EXHAUSTED"), `withRetry` invokes the operation exactly once,
awaits no delay, and rejects with that original error unchanged. -/
theorem withRetry_terminal_first_attempt {α : Type} (op : Nat → Except JsError α)
    (jitter : Nat → ℚ) (e : JsError) (h0 : op 0 = Except.error e)
    (hq : isQuotaError e = false) :
    withRetry op jitter = ⟨RetryOutcome.err e, 1, []⟩ := by
  have hbrk : retryGo op jitter 0 = ⟨.error e, 1, []⟩ :=
    retryGo_break op jitter 0 e h0 (fun hc => by rw [hq] at hc; exact Bool.false_ne_true hc.1)
  rw [withRetry_of_error op jitter e (by rw [hbrk]), hbrk,
    msgQuota_false_of_terminal e hq]
  rfl

/-- Witness for C1 at a concrete terminal error. -/
theorem withRetry_terminal_first_attempt_witness :
    withRetry (fun _ => (Except.error terminalErr : Except JsError Unit)) (constJitter 0)
      = ⟨RetryOutcome.err terminalErr, 1, []⟩ :=
  withRetry_terminal_first_attempt _ _ terminalErr rfl (by decide)

/-! ## C2 -/

/-- C2: `withRetry` never calls the operation more than `MAX_RETRIES + 1 = 6`
times; when every invocation fails transiently it calls it exactly 6 times
and does not resolve; and when the first `k` invocations (`1 ≤ k ≤
MAX_RETRIES`) fail transiently and invocation `k` succeeds with `v`, it
resolves with `v` after `k + 1` calls, hence at least 2 and at most 6. -/
theorem withRetry_call_counts {α : Type} (op : Nat → Except JsError α) (jitter : Nat → ℚ) :
    (withRetry op jitter).calls ≤ MAX_RETRIES + 1 ∧
    ((∀ n, isTransientFail (op n) = true) →
      (withRetry op jitter).calls = MAX_RETRIES + 1 ∧
        ∀ a : α, (withRetry op jitter).outcome ≠ RetryOutcome.ok a) ∧
    (∀ k (v : α), 1 ≤ k → k ≤ MAX_RETRIES →
      (∀ n, n < k → isTransientFail (op n) = true) → op k = Except.ok v →
      (withRetry op jitter).outcome = RetryOutcome.ok v ∧
        (withRetry op jitter).calls = k + 1 ∧ 2 ≤ (withRetry op jitter).calls) := by
  refine ⟨?_, ?_, ?_⟩
  · rw [withRetry_calls_eq]
    exact retryGo_calls_le op jitter MAX_RETRIES 0 (by omega)
  · intro hall
    cases hop : op MAX_RETRIES with
    | ok a =>
      have := hall MAX_RETRIES
      rw [hop] at this
      simp [isTransientFail] at this
    | error e =>
      have hrun := retryGo_exhausts op jitter e MAX_RETRIES 0 (by omega)
        (fun n _ _ => hall n) hop
      constructor
      · rw [withRetry_calls_eq, hrun.2]
      · intro a
        rw [withRetry_of_error op jitter e hrun.1]
        split <;> simp
  · intro k v hk1 hk5 hall hok
    have hrun := retryGo_resolves op jitter v k 0 k (by omega) hk5
      (fun n _ h2 => hall n h2) hok
    refine ⟨?_, ?_, ?_⟩
    · rw [withRetry_of_ok op jitter v hrun.1]
    · rw [withRetry_calls_eq, hrun.2]
    · rw [withRetry_calls_eq, hrun.2]
      omega

/-- Witness for C2 at an operation that always fails transiently: exactly 6
calls and no resolution. -/
theorem withRetry_call_counts_witness :
    (withRetry (alwaysFail quotaMsgErr) (constJitter 0)).calls = MAX_RETRIES + 1 ∧
      (withRetry (alwaysFail quotaMsgErr) (constJitter 0)).outcome ≠ RetryOutcome.ok () := by
  have h := (withRetry_call_counts (alwaysFail quotaMsgErr) (constJitter 0)).2.1
    (fun n => by show isTransientFail (Except.error quotaMsgErr) = true; decide)
  exact ⟨h.1, h.2 ()⟩

/-! ## C3 -/

/-- C3 counterexample: every attempt fails with an error that is transient
solely by its status field (status 429, message "boom" containing none of
the quota substrings).  The final (6th) attempt therefore fails with a
transient classification, yet `withRetry` rethrows the raw original error
instead of raising the distinguished quota-exceeded error, refuting the
claim's "in particular" clause. -/
theorem withRetry_status_only_counterexample :
    isQuotaError status429Err = true ∧
    (withRetry (alwaysFail status429Err) (constJitter 0)).calls = MAX_RETRIES + 1 ∧
    (withRetry (alwaysFail status429Err) (constJitter 0)).outcome
        = RetryOutcome.err status429Err ∧
    (withRetry (alwaysFail status429Err) (constJitter 0)).outcome
        ≠ RetryOutcome.quotaExceeded QUOTA_MSG := by
  have hrun := retryGo_exhausts (alwaysFail status429Err) (constJitter 0) status429Err
    MAX_RETRIES 0 (by omega)
    (fun n _ _ => by show isTransientFail (Except.error status429Err) = true; decide) rfl
  have hout := withRetry_of_error (alwaysFail status429Err) (constJitter 0)
    status429Err hrun.1
  have hmsg : msgMentionsQuota (jsOrEmpty status429Err.message) = false := by decide
  rw [hmsg] at hout
  refine ⟨by decide, ?_, ?_, ?_⟩
  · rw [withRetry_calls_eq, hrun.2]
  · rw [hout]
    rfl
  · rw [hout]
    simp

/-- C3 amended: when the first `MAX_RETRIES` attempts fail transiently and
the final attempt fails with error `e`, `withRetry` raises the distinguished
quota-exceeded error (distinct from any rethrown raw error) exactly when the
final error's *message* contains "429", "quota" or "RESOURCE_EXHAUSTED";
otherwise — including errors transient solely by their status field — it
rethrows the original error unchanged. -/
theorem withRetry_exhaustion_outcome {α : Type} (op : Nat → Except JsError α)
    (jitter : Nat → ℚ) (e : JsError)
    (hpre : ∀ n, n < MAX_RETRIES → isTransientFail (op n) = true)
    (hfin : op MAX_RETRIES = Except.error e) :
    (msgMentionsQuota (jsOrEmpty e.message) = true →
      (withRetry op jitter).outcome = RetryOutcome.quotaExceeded QUOTA_MSG ∧
        ∀ e' : JsError, (withRetry op jitter).outcome ≠ RetryOutcome.err e') ∧
    (msgMentionsQuota (jsOrEmpty e.message) = false →
      (withRetry op jitter).outcome = RetryOutcome.err e) := by
  have hrun := retryGo_exhausts op jitter e MAX_RETRIES 0 (by omega)
    (fun n _ h2 => hpre n h2) hfin
  have hout := withRetry_of_error op jitter e hrun.1
  constructor
  · intro hm
    rw [hm] at hout
    rw [hout]
    exact ⟨rfl, fun e' => by simp⟩
  · intro hm
    rw [hm] at hout
    rw [hout]
    rfl

/-- Witness for the amended C3: exhaustion on a message-transient error
raises the distinguished quota-exceeded error. -/
theorem withRetry_exhaustion_outcome_witness :
    (withRetry (alwaysFail quotaMsgErr) (constJitter 0)).outcome
      = RetryOutcome.quotaExceeded QUOTA_MSG :=
  ((withRetry_exhaustion_outcome (alwaysFail quotaMsgErr) (constJitter 0) quotaMsgErr
    (fun n _ => by show isTransientFail (Except.error quotaMsgErr) = true; decide)
    rfl).1 (by decide)).1

/-! ## C4 -/

/-- C4: the delays `withRetry` awaits are, in order, `BASE_DELAY * 2 ^ i +
jitter i` for the consecutive retry indices `i = 0, 1, ...` (so retry `k`,
1-indexed, waits `BASE_DELAY * 2 ^ (k - 1)` plus its jitter sample, which
lies in `[0, 1000)`); the deterministic component strictly doubles with each
retry, and with jitter bounded in `[0, 1000)` each delay strictly exceeds
the previous one, so the delay is monotone (in particular non-decreasing in
expectation). -/
theorem withRetry_backoff_delays {α : Type} (op : Nat → Except JsError α)
    (jitter : Nat → ℚ) (hj : ∀ n, 0 ≤ jitter n ∧ jitter n < 1000) :
    (withRetry op jitter).delays
        = (List.range (withRetry op jitter).delays.length).map
            (fun i => (BASE_DELAY : ℚ) * 2 ^ i + jitter i) ∧
      (withRetry op jitter).delays.length ≤ MAX_RETRIES ∧
      ∀ i : Nat,
        (BASE_DELAY : ℚ) * 2 ^ (i + 1) = 2 * ((BASE_DELAY : ℚ) * 2 ^ i) ∧
        (BASE_DELAY : ℚ) * 2 ^ i + jitter i
          < (BASE_DELAY : ℚ) * 2 ^ (i + 1) + jitter (i + 1) := by
  obtain ⟨m, hm, hd⟩ := retryGo_delays_eq op jitter MAX_RETRIES 0 (by omega) (by omega)
  rw [← List.range_eq_range'] at hd
  have hlen : (withRetry op jitter).delays.length = m := by
    rw [withRetry_delays_eq, hd, List.length_map, List.length_range]
  refine ⟨?_, ?_, ?_⟩
  · rw [hlen, withRetry_delays_eq, hd]
  · omega
  · intro i
    have hB : (BASE_DELAY : ℚ) = 2000 := by norm_num [BASE_DELAY]
    have hdouble : (BASE_DELAY : ℚ) * 2 ^ (i + 1) = 2 * ((BASE_DELAY : ℚ) * 2 ^ i) := by
      ring
    refine ⟨hdouble, ?_⟩
    rw [hdouble, hB]
    have h1 : (1 : ℚ) ≤ 2 ^ i := one_le_pow₀ (by norm_num)
    have h2 := (hj i).2
    have h3 := (hj (i + 1)).1
    nlinarith

/-- Witness for C4: with an always-transient operation and constant jitter
500, the awaited delays follow the backoff formula. -/
theorem withRetry_backoff_delays_witness :
    (withRetry (alwaysFail quotaMsgErr) (constJitter 500)).delays
        = (List.range
            (withRetry (alwaysFail quotaMsgErr) (constJitter 500)).delays.length).map
            (fun i => (BASE_DELAY : ℚ) * 2 ^ i + constJitter 500 i) ∧
      (withRetry (alwaysFail quotaMsgErr) (constJitter 500)).delays.length ≤ MAX_RETRIES ∧
      (BASE_DELAY : ℚ) * 2 ^ (0 + 1) = 2 * ((BASE_DELAY : ℚ) * 2 ^ 0) ∧
      (BASE_DELAY : ℚ) * 2 ^ 0 + constJitter 500 0
        < (BASE_DELAY : ℚ) * 2 ^ (0 + 1) + constJitter 500 1 := by
  have h := withRetry_backoff_delays (alwaysFail quotaMsgErr) (constJitter 500)
    (fun n => by constructor <;> norm_num [constJitter])
  exact ⟨h.1, h.2.1, (h.2.2 0).1, (h.2.2 0).2⟩

/-! ## Response parser lemmas -/

/-- On a response with a non-empty parts list, the parser reduces to the
part scan: first inline-data part, else first truthy text part, else the
no-image-data error. -/
theorem parseImageResponse_parts (pf : Option PromptFeedback) (rest : List Candidate)
    (fr : Option String) (q : ResponsePart) (qs : List ResponsePart) :
    parseImageResponse (some (partsResponse (q :: qs) fr pf rest))
      = match findInline (q :: qs) with
        | some d => Except.ok ("data:image/png;base64," ++ jsInterp d.data)
        | none =>
          match (q :: qs).find? (fun p => jsTruthyStr p.text) with
          | some tp =>
            Except.error ("Модель вернула текст вместо изображения: \"" ++
              (jsOrEmpty tp.text).take 100 ++ "...\"")
          | none => Except.error "В ответе не найдено данных изображения." := rfl

/-- The part scan returns the first inline-data payload, skipping any
earlier parts (text or otherwise) without inline data. -/
theorem findInline_append (pre post : List ResponsePart) (p : ResponsePart)
    (d : InlineData) (hpre : ∀ q ∈ pre, q.inlineData = none)
    (hp : p.inlineData = some d) :
    findInline (pre ++ p :: post) = some d := by
  induction pre with
  | nil => simp [findInline, hp]
  | cons q rest ih =>
    have hq : q.inlineData = none := hpre q (by simp)
    simp only [List.cons_append, findInline, hq]
    exact ih (fun r hr => hpre r (by simp [hr]))

/-- A response whose parts scan finds inline data parses to the png data
URI built from that payload. -/
theorem parse_ok_of_findInline (pf : Option PromptFeedback) (rest : List Candidate)
    (fr : Option String) (ps : List ResponsePart) (d : InlineData)
    (hne : ps ≠ []) (hf : findInline ps = some d) :
    parseImageResponse (some (partsResponse ps fr pf rest))
      = Except.ok ("data:image/png;base64," ++ jsInterp d.data) := by
  cases ps with
  | nil => exact absurd rfl hne
  | cons q qs => rw [parseImageResponse_parts, hf]

/-! ## C5 -/

/-- C5: for a response whose first candidate has a non-empty parts list in
which part `p` is the first part carrying inline image data (all parts
before it, text or otherwise, carry none), the parser returns
`data:image/png;base64,` followed by that part's data — regardless of where
text parts appear and regardless of the payload's own MIME type. -/
theorem parseImageResponse_first_image_wins (pf : Option PromptFeedback)
    (rest : List Candidate) (fr : Option String) (pre post : List ResponsePart)
    (p : ResponsePart) (d : InlineData)
    (hpre : ∀ q ∈ pre, q.inlineData = none) (hp : p.inlineData = some d) :
    parseImageResponse (some (partsResponse (pre ++ p :: post) fr pf rest))
      = Except.ok ("data:image/png;base64," ++ jsInterp d.data) :=
  parse_ok_of_findInline pf rest fr _ d (by simp)
    (findInline_append pre post p d hpre hp)

/-- Witness for C5: a text part first, the inline image part second; the
image (a jpeg payload!) wins and is returned with a png prefix. -/
theorem parseImageResponse_first_image_wins_witness :
    parseImageResponse (some (partsResponse
        [⟨none, some "here is your image"⟩, ⟨some ⟨some "QUJD", some "image/jpeg"⟩, none⟩]
        none none []))
      = Except.ok "data:image/png;base64,QUJD" :=
  parseImageResponse_first_image_wins none [] none
    [⟨none, some "here is your image"⟩] [] ⟨some ⟨some "QUJD", some "image/jpeg"⟩, none⟩
    ⟨some "QUJD", some "image/jpeg"⟩ (by decide) rfl

/-! ## C6 -/

/-- The no-content branch of the parser reduces to the finish-reason
lookup. -/
theorem parse_noContent_eq (reason : String) (pf : Option PromptFeedback)
    (rest : List Candidate) :
    parseImageResponse (some (noContentResponse reason pf rest))
      = if reason.isEmpty then Except.error "Модель вернула ответ без контента."
        else Except.error ("Генерация прервана. Причина: " ++ jsStrOr (reasonsMap reason) reason) := rfl

/-- C6: for a response whose first candidate has no content but a (truthy)
finish reason, the parser fails with the localized message from the fixed
lookup table for each of the five mapped reasons — in particular
`IMAGE_SAFETY` maps to the localized text, not the raw enum string — and
falls back to the raw reason string for any unmapped reason. -/
theorem parseImageResponse_finishReason_map (pf : Option PromptFeedback)
    (rest : List Candidate) (reason : String) (hne : reason ≠ "") :
    (reason = "SAFETY" →
      parseImageResponse (some (noContentResponse reason pf rest))
        = Except.error "Генерация прервана. Причина: Заблокировано фильтрами безопасности.") ∧
    (reason = "RECITATION" →
      parseImageResponse (some (noContentResponse reason pf rest))
        = Except.error "Генерация прервана. Причина: Обнаружено цитирование.") ∧
    (reason = "OTHER" →
      parseImageResponse (some (noContentResponse reason pf rest))
        = Except.error "Генерация прервана. Причина: Иная причина завершения.") ∧
    (reason = "IMAGE_SAFETY" →
      parseImageResponse (some (noContentResponse reason pf rest))
        = Except.error "Генерация прервана. Причина: Изображение заблокировано фильтрами безопасности." ∧
      parseImageResponse (some (noContentResponse reason pf rest))
        ≠ Except.error "Генерация прервана. Причина: IMAGE_SAFETY") ∧
    (reason = "IMAGE_OTHER" →
      parseImageResponse (some (noContentResponse reason pf rest))
        = Except.error "Генерация прервана. Причина: Не удалось сгенерировать изображение. Попробуйте изменить запрос или использовать другое изображение.") ∧
    (reasonsMap reason = none →
      parseImageResponse (some (noContentResponse reason pf rest))
        = Except.error ("Генерация прервана. Причина: " ++ reason)) := by
  have hempty : reason.isEmpty = false := by
    rw [Bool.eq_false_iff, Ne, String.isEmpty_iff]
    exact hne
  refine ⟨?_, ?_, ?_, ?_, ?_, ?_⟩
  · rintro rfl; rfl
  · rintro rfl; rfl
  · rintro rfl; rfl
  · rintro rfl
    refine ⟨rfl, ?_⟩
    rw [show parseImageResponse (some (noContentResponse "IMAGE_SAFETY" pf rest))
        = Except.error "Генерация прервана. Причина: Изображение заблокировано фильтрами безопасности." from rfl]
    intro hcon
    exact absurd (Except.error.inj hcon) (by decide)
  · rintro rfl; rfl
  · intro hmap
    rw [parse_noContent_eq, hempty, hmap]
    rfl

/-- Witness for C6 at `IMAGE_SAFETY`: the mapped localized message, not the
raw enum string. -/
theorem parseImageResponse_finishReason_map_witness :
    parseImageResponse (some (noContentResponse "IMAGE_SAFETY" none []))
        = Except.error "Генерация прервана. Причина: Изображение заблокировано фильтрами безопасности." ∧
      parseImageResponse (some (noContentResponse "IMAGE_SAFETY" none []))
        ≠ Except.error "Генерация прервана. Причина: IMAGE_SAFETY" :=
  (parseImageResponse_finishReason_map none [] "IMAGE_SAFETY" (by decide)).2.2.2.1 rfl

/-! ## C10 -/

/-- C10 (implicit): the part scan tests only the presence of the
`inlineData` field, never the image bytes: when the first inline-data part
has a missing or empty `data` field, the parser still succeeds, returning
the png prefix concatenated with the interpolation of that missing/empty
value (the text `undefined` for a missing field, the empty string for an
empty one), rather than failing with any diagnostic error. -/
theorem parseImageResponse_accepts_empty_data (pf : Option PromptFeedback)
    (rest : List Candidate) (fr : Option String) (pre post : List ResponsePart)
    (p : ResponsePart) (d : InlineData)
    (hpre : ∀ q ∈ pre, q.inlineData = none) (hp : p.inlineData = some d)
    (_hd : d.data = none ∨ d.data = some "") :
    parseImageResponse (some (partsResponse (pre ++ p :: post) fr pf rest))
        = Except.ok ("data:image/png;base64," ++ jsInterp d.data) ∧
      (d.data = none →
        parseImageResponse (some (partsResponse (pre ++ p :: post) fr pf rest))
          = Except.ok "data:image/png;base64,undefined") ∧
      (d.data = some "" →
        parseImageResponse (some (partsResponse (pre ++ p :: post) fr pf rest))
          = Except.ok "data:image/png;base64,") ∧
      ∀ msg, parseImageResponse (some (partsResponse (pre ++ p :: post) fr pf rest))
          ≠ Except.error msg := by
  have hok := parse_ok_of_findInline pf rest fr _ d (by simp)
    (findInline_append pre post p d hpre hp)
  refine ⟨hok, ?_, ?_, ?_⟩
  · intro hdd
    rw [hok, hdd]
    rfl
  · intro hdd
    rw [hok, hdd]
    rfl
  · intro msg
    rw [hok]
    simp

/-- Witness for C10: an inline-data part with its data field missing parses
to the literal `data:image/png;base64,undefined`. -/
theorem parseImageResponse_accepts_empty_data_witness :
    parseImageResponse (some (partsResponse [⟨some ⟨none, none⟩, none⟩] none none []))
      = Except.ok "data:image/png;base64,undefined" :=
  ((parseImageResponse_accepts_empty_data none [] none [] [] ⟨some ⟨none, none⟩, none⟩
    ⟨none, none⟩ (by decide) rfl (Or.inl rfl)).2.1) rfl

/-! ## Data-URI pattern lemmas -/

/-- A list is a prefix of itself followed by anything. -/
theorem isPrefixOf_append_self (p t : List Char) : p.isPrefixOf (p ++ t) = true := by
  induction p with
  | nil => simp
  | cons c cs ih => simp [List.isPrefixOf_cons₂, ih]

/-- Two lists neither of which is a prefix of the other disagree within
their common length, so no extension of the second can make the first a
prefix. -/
theorem isPrefixOf_append_false (p q t : List Char) (h1 : p.isPrefixOf q = false)
    (h2 : q.isPrefixOf p = false) : p.isPrefixOf (q ++ t) = false := by
  induction p generalizing q with
  | nil => simp at h1
  | cons c cs ih =>
    cases q with
    | nil => simp at h2
    | cons b bs =>
      rw [List.isPrefixOf_cons₂] at h1
      rw [List.isPrefixOf_cons₂] at h2
      rw [List.cons_append, List.isPrefixOf_cons₂]
      cases hcb : (c == b) with
      | false => simp [hcb]
      | true =>
        have hbc : (b == c) = true := by
          rw [beq_iff_eq] at hcb ⊢
          exact hcb.symm
        rw [hcb] at h1
        rw [hbc] at h2
        simp only [Bool.true_and] at h1 h2
        simp [hcb, ih bs h1 h2]

/-- `takeWhile` over a block of satisfying elements followed by a failing
element returns exactly the block. -/
theorem takeWhile_middle (f : Char → Bool) (a : List Char) (c : Char) (b : List Char)
    (ha : ∀ x ∈ a, f x = true) (hc : f c = false) :
    (a ++ c :: b).takeWhile f = a := by
  induction a with
  | nil => simp [List.takeWhile_cons, hc]
  | cons x xs ih =>
    have hx : f x = true := ha x (by simp)
    simp only [List.cons_append, List.takeWhile_cons, hx, if_true]
    rw [ih (fun y hy => ha y (by simp [hy]))]

/-- Any string of the form `data:image/<letters>;base64,<tail>` with a
non-empty ASCII-letter run matches the MIME pattern with capture
`image/<letters>`. -/
theorem mimeOfDataUrl_match (letters t : List Char) (hne : letters ≠ [])
    (hall : ∀ c ∈ letters, isAsciiLetter c = true) :
    mimeOfDataUrl (String.mk ("data:image/".data ++ (letters ++ (";base64,".data ++ t))))
      = some ("image/" ++ String.mk letters) := by
  have hg : ("data:image/" : String).data.isPrefixOf
      ("data:image/".data ++ (letters ++ (";base64,".data ++ t))) = true :=
    isPrefixOf_append_self _ _
  have hdrop : ("data:image/".data ++ (letters ++ (";base64,".data ++ t))).drop 11
      = letters ++ (";base64,".data ++ t) := by
    rw [show (11 : Nat) = ("data:image/" : String).data.length from rfl]
    exact List.drop_left _ _
  have hsemi : (";base64," : String).data = ';' :: "base64,".data := by decide
  have htake : (letters ++ (";base64,".data ++ t)).takeWhile isAsciiLetter = letters := by
    rw [hsemi, List.cons_append]
    exact takeWhile_middle _ _ _ _ hall (by decide)
  have hup : (letters ++ (";base64,".data ++ t)).drop letters.length
      = ";base64,".data ++ t := List.drop_left _ _
  have hb64 : (";base64," : String).data.isPrefixOf (";base64,".data ++ t) = true :=
    isPrefixOf_append_self _ _
  have hLe : letters.isEmpty = false := by
    cases letters with
    | nil => exact absurd rfl hne
    | cons c cs => rfl
  simp only [mimeOfDataUrl, hg, hdrop, htake, hup, hb64, hLe, if_true,
    Bool.false_eq_true, if_false]

/-- Stripping removes the matched head for each of the four listed
extensions. -/
theorem stripDataUrl_head (ext rest : String) (hmem : ext ∈ IMAGE_EXTS) :
    stripDataUrl (dataUrlHead ext ++ rest) = rest := by
  fin_cases hmem
  · -- ext = "png"
    have hdata : (dataUrlHead "png" ++ rest).data
        = "data:image/png;base64,".data ++ rest.data := by
      rw [String.data_append, show (dataUrlHead "png").data
        = "data:image/png;base64,".data from by decide]
    have h0 : (dataUrlHead "png").data.isPrefixOf ((dataUrlHead "png" ++ rest).data) = true := by
      rw [hdata, show (dataUrlHead "png").data = "data:image/png;base64,".data from by decide]
      exact isPrefixOf_append_self _ _
    unfold stripDataUrl
    simp only [IMAGE_EXTS, List.find?, h0]
    rw [hdata,
      show (dataUrlHead "png").data.length = "data:image/png;base64,".data.length from by decide,
      List.drop_left]
  · -- ext = "jpeg"
    have hdata : (dataUrlHead "jpeg" ++ rest).data
        = "data:image/jpeg;base64,".data ++ rest.data := by
      rw [String.data_append, show (dataUrlHead "jpeg").data
        = "data:image/jpeg;base64,".data from by decide]
    have h0 : (dataUrlHead "png").data.isPrefixOf ((dataUrlHead "jpeg" ++ rest).data) = false := by
      rw [hdata]
      exact isPrefixOf_append_false _ _ _ (by decide) (by decide)
    have h1 : (dataUrlHead "jpeg").data.isPrefixOf ((dataUrlHead "jpeg" ++ rest).data) = true := by
      rw [hdata, show (dataUrlHead "jpeg").data = "data:image/jpeg;base64,".data from by decide]
      exact isPrefixOf_append_self _ _
    unfold stripDataUrl
    simp only [IMAGE_EXTS, List.find?, h0, h1]
    rw [hdata,
      show (dataUrlHead "jpeg").data.length = "data:image/jpeg;base64,".data.length from by decide,
      List.drop_left]
  · -- ext = "jpg"
    have hdata : (dataUrlHead "jpg" ++ rest).data
        = "data:image/jpg;base64,".data ++ rest.data := by
      rw [String.data_append, show (dataUrlHead "jpg").data
        = "data:image/jpg;base64,".data from by decide]
    have h0 : (dataUrlHead "png").data.isPrefixOf ((dataUrlHead "jpg" ++ rest).data) = false := by
      rw [hdata]
      exact isPrefixOf_append_false _ _ _ (by decide) (by decide)
    have h1 : (dataUrlHead "jpeg").data.isPrefixOf ((dataUrlHead "jpg" ++ rest).data) = false := by
      rw [hdata]
      exact isPrefixOf_append_false _ _ _ (by decide) (by decide)
    have h2 : (dataUrlHead "jpg").data.isPrefixOf ((dataUrlHead "jpg" ++ rest).data) = true := by
      rw [hdata, show (dataUrlHead "jpg").data = "data:image/jpg;base64,".data from by decide]
      exact isPrefixOf_append_self _ _
    unfold stripDataUrl
    simp only [IMAGE_EXTS, List.find?, h0, h1, h2]
    rw [hdata,
      show (dataUrlHead "jpg").data.length = "data:image/jpg;base64,".data.length from by decide,
      List.drop_left]
  · -- ext = "webp"
    have hdata : (dataUrlHead "webp" ++ rest).data
        = "data:image/webp;base64,".data ++ rest.data := by
      rw [String.data_append, show (dataUrlHead "webp").data
        = "data:image/webp;base64,".data from by decide]
    have h0 : (dataUrlHead "png").data.isPrefixOf ((dataUrlHead "webp" ++ rest).data) = false := by
      rw [hdata]
      exact isPrefixOf_append_false _ _ _ (by decide) (by decide)
    have h1 : (dataUrlHead "jpeg").data.isPrefixOf ((dataUrlHead "webp" ++ rest).data) = false := by
      rw [hdata]
      exact isPrefixOf_append_false _ _ _ (by decide) (by decide)
    have h2 : (dataUrlHead "jpg").data.isPrefixOf ((dataUrlHead "webp" ++ rest).data) = false := by
      rw [hdata]
      exact isPrefixOf_append_false _ _ _ (by decide) (by decide)
    have h3 : (dataUrlHead "webp").data.isPrefixOf ((dataUrlHead "webp" ++ rest).data) = true := by
      rw [hdata, show (dataUrlHead "webp").data = "data:image/webp;base64,".data from by decide]
      exact isPrefixOf_append_self _ _
    unfold stripDataUrl
    simp only [IMAGE_EXTS, List.find?, h0, h1, h2, h3]
    rw [hdata,
      show (dataUrlHead "webp").data.length = "data:image/webp;base64,".data.length from by decide,
      List.drop_left]

/-! ## C7 -/

/-- C7 counterexample: the strip pattern is restricted to
{png, jpeg, jpg, webp} but the MIME match accepts any `image/[a-zA-Z]+`, so
`data:image/gif;base64,AAAA` is left unstripped yet tagged `image/gif` —
not `image/png` as the claim's fallback clause asserts. -/
theorem createImagePart_gif_counterexample :
    createImagePart "data:image/gif;base64,AAAA"
        = ⟨"data:image/gif;base64,AAAA", "image/gif"⟩ ∧
      (createImagePart "data:image/gif;base64,AAAA").mimeType ≠ "image/png" := by
  decide

/-- C7 (amended): `createImagePart` is total (never throws).  An input with
a `data:image/<ext>;base64,` head for `ext` in {png, jpeg, jpg, webp} is
stripped of that head and tagged `image/<ext>`.  The MIME tag equals the
capture of the general `data:(image\/[a-zA-Z]+);base64,` match whenever
that match succeeds — so a data URI with any *other* alphabetic extension
keeps its own `image/<ext>` tag — and defaults to `image/png` only when the
match fails; the data is left unstripped whenever none of the four listed
heads matches. -/
theorem createImagePart_cases (s : String) :
    (∀ ext rest, ext ∈ IMAGE_EXTS → s = dataUrlHead ext ++ rest →
      createImagePart s = ⟨rest, "image/" ++ ext⟩) ∧
    (∀ mt, mimeOfDataUrl s = some mt → (createImagePart s).mimeType = mt) ∧
    (mimeOfDataUrl s = none → (createImagePart s).mimeType = "image/png") ∧
    ((∀ ext ∈ IMAGE_EXTS, (dataUrlHead ext).data.isPrefixOf s.data = false) →
      (createImagePart s).data = s) := by
  refine ⟨?_, ?_, ?_, ?_⟩
  · intro ext rest hmem hs
    have hstrip := stripDataUrl_head ext rest hmem
    have hdata : (dataUrlHead ext ++ rest).data
        = "data:image/".data ++ (ext.data ++ (";base64,".data ++ rest.data)) := by
      simp [dataUrlHead, String.data_append]
    have hs3 : dataUrlHead ext ++ rest
        = String.mk ("data:image/".data ++ (ext.data ++ (";base64,".data ++ rest.data))) :=
      congrArg String.mk hdata
    have hne : ext.data ≠ [] := by
      fin_cases hmem <;> decide
    have hall : ∀ c ∈ ext.data, isAsciiLetter c = true := by
      fin_cases hmem <;> decide
    have hmime : mimeOfDataUrl (dataUrlHead ext ++ rest) = some ("image/" ++ ext) := by
      rw [hs3, mimeOfDataUrl_match ext.data rest.data hne hall]
    subst hs
    simp [createImagePart, hstrip, hmime]
  · intro mt h
    simp [createImagePart, h]
  · intro h
    simp [createImagePart, h]
  · intro h
    have hfind : IMAGE_EXTS.find?
        (fun ext => (dataUrlHead ext).data.isPrefixOf s.data) = none :=
      List.find?_eq_none.mpr (fun x hx => by rw [h x hx]; exact Bool.false_ne_true)
    simp [createImagePart, stripDataUrl, hfind]

/-- Witness for the amended C7 at the claim's two worked examples. -/
theorem createImagePart_cases_witness :
    createImagePart "data:image/jpeg;base64,AAAA" = ⟨"AAAA", "image/jpeg"⟩ ∧
      createImagePart "AAAA" = ⟨"AAAA", "image/png"⟩ := by
  constructor
  · exact (createImagePart_cases "data:image/jpeg;base64,AAAA").1 "jpeg" "AAAA"
      (by decide) (by decide)
  · have h3 := (createImagePart_cases "AAAA").2.2.1 (by decide)
    have h4 := (createImagePart_cases "AAAA").2.2.2 (by decide)
    calc createImagePart "AAAA"
        = ⟨(createImagePart "AAAA").data, (createImagePart "AAAA").mimeType⟩ := rfl
      _ = ⟨"AAAA", "image/png"⟩ := by rw [h3, h4]

/-! ## C8 -/

/-- The forEach accumulation appends, in input order, each image part
followed by its optional annotation. -/
theorem mixLoop_eq (inputs : List MixInput) :
    ∀ acc, mixLoop acc inputs
      = acc ++ inputs.flatMap
          (fun input => RequestPart.image (createImagePart input.base64)
            :: labelParts input.label) := by
  induction inputs with
  | nil => intro acc; simp [mixLoop]
  | cons i rest ih =>
    intro acc
    rw [mixLoop, ih, List.flatMap_cons, List.append_assoc]

/-- C8: the request parts built by `mixImages` preserve input order
exactly: for each input in order its image part, immediately followed by a
text annotation exactly when that input carries a (truthy) label, and after
all inputs a single final instruction text segment as the last part. -/
theorem mixImages_structure (inputs : List MixInput) (prompt : String) :
    mixImages inputs prompt
        = inputs.flatMap
            (fun input => RequestPart.image (createImagePart input.base64)
              :: labelParts input.label)
          ++ [RequestPart.text (prompt ++ ". Return only the combined image.")] ∧
      (∀ lab l, lab = some l → l ≠ "" →
        labelParts lab = [RequestPart.text ("Reference for: " ++ l)]) ∧
      (∀ lab, lab = none ∨ lab = some "" → labelParts lab = []) ∧
      (mixImages inputs prompt).getLast?
        = some (RequestPart.text (prompt ++ ". Return only the combined image.")) := by
  have hmain : mixImages inputs prompt
      = inputs.flatMap
          (fun input => RequestPart.image (createImagePart input.base64)
            :: labelParts input.label)
        ++ [RequestPart.text (prompt ++ ". Return only the combined image.")] := by
    unfold mixImages
    rw [mixLoop_eq inputs []]
    rfl
  refine ⟨hmain, ?_, ?_, ?_⟩
  · intro lab l hl hne
    subst hl
    have hempty : l.isEmpty = false := by
      rw [Bool.eq_false_iff, Ne, String.isEmpty_iff]
      exact hne
    simp [labelParts, hempty]
  · intro lab h
    rcases h with h | h <;> subst h <;> rfl
  · rw [hmain]
    exact List.getLast?_concat _

/-- Witness for C8 at two inputs, one labeled and one not. -/
theorem mixImages_structure_witness :
    mixImages [⟨"img1", some "Style"⟩, ⟨"img2", none⟩] "Blend them"
        = [RequestPart.image (createImagePart "img1"),
           RequestPart.text "Reference for: Style",
           RequestPart.image (createImagePart "img2"),
           RequestPart.text "Blend them. Return only the combined image."] ∧
      (mixImages [⟨"img1", some "Style"⟩, ⟨"img2", none⟩] "Blend them").getLast?
        = some (RequestPart.text "Blend them. Return only the combined image.") := by
  have h := mixImages_structure [⟨"img1", some "Style"⟩, ⟨"img2", none⟩] "Blend them"
  exact ⟨h.1, h.2.2.2⟩

/-! ## C9 -/

/-- C9: the object-detection decoding path attempts to decode the response
text and degrades to the empty list on failure: an absent text, an empty
text, or a text on which `JSON.parse` throws all yield `[]` — the function
is total, so no exception propagates. -/
theorem detectObjects_decode_failure
    (parseJson : String → Except String (List DetectionBox)) (text : Option String)
    (h : text = none ∨ text = some "" ∨
      ∀ t, text = some t → ∃ msg, parseJson t = Except.error msg) :
    detectObjects parseJson text = [] := by
  rcases h with h | h | h
  · subst h; rfl
  · subst h; rfl
  · cases text with
    | none => rfl
    | some t =>
      obtain ⟨msg, hmsg⟩ := h t rfl
      dsimp only [detectObjects]
      rw [hmsg]
      split <;> rfl

/-- Witness for C9: unparsable JSON text yields the empty list. -/
theorem detectObjects_decode_failure_witness :
    detectObjects (fun _ => Except.error "SyntaxError: Unexpected token")
      (some "not json") = [] :=
  detectObjects_decode_failure _ (some "not json")
    (Or.inr (Or.inr (fun _ _ => ⟨"SyntaxError: Unexpected token", rfl⟩)))

end Gena
